import Mathlib

/-
Verification of the jxl-oxide frame-decoder core against its specification.

The development shallowly embeds the Rust sources:
  crates/jxl-frame/src/lib.rs           (TOC dispatcher, loaders, FrameData)
  crates/jxl-frame/src/data/spline.rs   (spline parsing, dequantisation, sampling)

Modelling conventions:
  * machine integers are Nat/Int; u32 arithmetic that can wrap is reduced
    mod 2^32 explicitly;
  * f32 arithmetic is idealised: exact rationals for the erf approximation,
    real numbers for the spline geometry;
  * the entropy decoder (jxl-coding, not under verification) is an oracle:
    an infinite stream of varint values indexed by read count;
  * external collaborators that are out of scope for the spec (the modular
    sub-image type, the per-section parsers, the byte source) are abstract
    parameters collected in context structures; Rust Result is Except,
    panics are an explicit error value.
-/

namespace Jxl

/-! ## Numeric helpers: the erf approximation (spline.rs lines 378-396)

The f32 computation is idealised over exact rationals; the constants are the
decimal literals of the source. -/

def erf_coeff_a : ℚ := 7.77394369e-2

def erf_coeff_b : ℚ := 2.05260015e-4

def erf_coeff_c : ℚ := 2.32120216e-1

def erf_coeff_d : ℚ := 2.77820801e-1

/-- Embedding of `erf` (spline.rs 378-396): the polynomial `denom4` is built
by Horner steps on `|x|`, squared once into `denom5`, and the result is
`-inv_denom5 * inv_denom5 + 1` with the sign of `x` re-applied. -/
def erf (x : ℚ) : ℚ :=
  let ax := |x|
  let denom1 := ax * erf_coeff_a + erf_coeff_b
  let denom2 := denom1 * ax + erf_coeff_c
  let denom3 := denom2 * ax + erf_coeff_d
  let denom4 := denom3 * ax + 1
  let denom5 := denom4 * denom4
  let inv_denom5 := 1 / denom5
  let result := -inv_denom5 * inv_denom5 + 1
  if x < 0 then -result else result

/-- The denominator polynomial exactly as the claim words it:
`(((a*|x| + b)*|x| + c)*|x| + d)*|x| + 1`. -/
def erf_denom (x : ℚ) : ℚ :=
  (((erf_coeff_a * |x| + erf_coeff_b) * |x| + erf_coeff_c) * |x| + erf_coeff_d) * |x| + 1

/-- Sign function used by the claim's formula `sign(x) * y`. -/
def rsign (x : ℚ) : ℚ :=
  if x < 0 then -1 else if 0 < x then 1 else 0

/-! ## Spline bitstream parsing (spline.rs lines 56-137)

The entropy decoder is abstracted as an oracle `reads : ℕ → ℕ` giving the
value of the n-th `read_varint` call; a decoder position is the count of
varints consumed so far.  Bitstream-level failures of the external decoder
are out of scope (the oracle is total), so the only reachable errors are the
two spline count caps checked in this file. -/

def MAX_NUM_SPLINES : ℕ := 2 ^ 24

def MAX_NUM_CONTROL_POINTS : ℕ := 2 ^ 20

def u32_size : ℕ := 2 ^ 32

/-- Zig-zag decoding, modelled from the spec: `unpack_signed` maps even `u`
to `u/2` and odd `u` to `-(u+1)/2` (jxl-bitstream is not under src/). -/
def unpack_signed (u : ℕ) : ℤ :=
  if u % 2 = 0 then ((u / 2 : ℕ) : ℤ) else -(((u : ℤ) + 1) / 2)

/-- Reinterpretation of a u32 as an i32 (the `as i32` cast on the first
start point read). -/
def u32_as_i32 (u : ℕ) : ℤ :=
  if u % u32_size < 2 ^ 31 then ((u % u32_size : ℕ) : ℤ) else ((u % u32_size : ℕ) : ℤ) - (u32_size : ℤ)

def u64_size : ℕ := 2 ^ 64

/-- The i32 value represented by `z` after two's-complement wrapping: the
release-mode semantics of overflowing i32 arithmetic. -/
def wrap_i32 (z : ℤ) : ℤ :=
  (z + 2 ^ 31) % (2 ^ 32 : ℤ) - 2 ^ 31

/-- `i32::abs` in release mode: `i32::MIN.abs()` wraps back to `i32::MIN`. -/
def i32_abs (z : ℤ) : ℤ :=
  wrap_i32 |z|

/-- The `as u64` cast of an i32 value (sign-extends, so a negative value
becomes `2^64 + z`). -/
def i32_as_u64 (z : ℤ) : ℕ :=
  (z % (2 ^ 64 : ℤ)).toNat

/-- The u64 value of `(v.0.abs() + v.1.abs()) as u64` on an i32 pair, with
the release-mode wrapping of the abs and of the i32 addition. -/
def i32_one_norm (v : ℤ × ℤ) : ℕ :=
  i32_as_u64 (wrap_i32 (i32_abs v.1 + i32_abs v.2))

/-- Componentwise i32 wrapping addition of coordinate pairs (the `+=` on
the two i32 fields of a point). -/
def wadd (p q : ℤ × ℤ) : ℤ × ℤ :=
  (wrap_i32 (p.1 + q.1), wrap_i32 (p.2 + q.2))

inductive SplineError
  | tooManySplines (n : ℕ)
  | tooManySplinePoints (n : ℕ)
deriving DecidableEq

/-- Quantised spline (spline.rs 48-54): integer start point, second-order
point deltas, 3x32 XYB and 32 sigma DCT coefficients. -/
structure QuantSpline where
  start_point : ℤ × ℤ
  points_deltas : List (ℤ × ℤ)
  xyb_dct : Fin 3 → Fin 32 → ℤ
  sigma_dct : Fin 32 → ℤ

/-- Splines collection (spline.rs 19-23). -/
structure Splines where
  quant_splines : List QuantSpline
  quant_adjust : ℤ

/-- Embedding of `QuantSpline::decode` (spline.rs 109-137). `pos` is the
number of varints consumed before this call; each `read_varint` yields a
u32 (the oracle value reduced mod 2^32); on success the consumed count
advances past the deltas (2 per point), the 96 XYB and the 32 sigma
coefficients. -/
def quant_spline_decode (reads : ℕ → ℕ) (num_pixels : ℕ) (start : ℤ × ℤ) (pos : ℕ) :
    Except SplineError (QuantSpline × ℕ) :=
  let num_points := reads pos % u32_size
  if MAX_NUM_CONTROL_POINTS.min (num_pixels / 2) < num_points then
    Except.error (SplineError.tooManySplinePoints num_points)
  else
    let deltas := (List.range num_points).map fun k =>
      (unpack_signed (reads (pos + 1 + 2 * k) % u32_size),
       unpack_signed (reads (pos + 2 + 2 * k) % u32_size))
    let base := pos + 1 + 2 * num_points
    Except.ok
      ({ start_point := start
         points_deltas := deltas
         xyb_dct := fun c i => unpack_signed (reads (base + 32 * c.val + i.val) % u32_size)
         sigma_dct := fun i => unpack_signed (reads (base + 96 + i.val) % u32_size) },
       base + 128)

/-- The i-th decoded start point (spline.rs 71-81): the first is a raw i32
pair, later ones are zig-zag deltas added to the previous point with i32
wrapping addition. -/
def start_point_at (reads : ℕ → ℕ) : ℕ → ℤ × ℤ
  | 0 => (u32_as_i32 (reads 1), u32_as_i32 (reads 2))
  | i + 1 =>
    let p := start_point_at reads i
    (wrap_i32 (unpack_signed (reads (2 * (i + 1) + 1) % u32_size) + p.1),
     wrap_i32 (unpack_signed (reads (2 * (i + 1) + 2) % u32_size) + p.2))

/-- Decode loop over the spline list (spline.rs 85-90). -/
def decode_spline_list (reads : ℕ → ℕ) (num_pixels : ℕ) :
    List (ℤ × ℤ) → ℕ → Except SplineError (List QuantSpline)
  | [], _ => Except.ok []
  | start :: rest, pos =>
    match quant_spline_decode reads num_pixels start pos with
    | Except.error e => Except.error e
    | Except.ok (q, pos') =>
      match decode_spline_list reads num_pixels rest pos' with
      | Except.error e => Except.error e
      | Except.ok qs => Except.ok (q :: qs)

/-- Embedding of `<Splines as Bundle>::parse` (spline.rs 59-96).
`num_pixels` is the u32 product `width * height` (wrapping), cast to usize.
Varint read order: count at 0, the 2*n start coordinates at 1..2n, the
quant adjust at 2n+1, then the per-spline payloads. -/
def splines_parse (reads : ℕ → ℕ) (width height : ℕ) : Except SplineError Splines :=
  let num_pixels := (width * height) % u32_size
  let num_splines := (reads 0 % u32_size + 1) % u32_size
  if MAX_NUM_SPLINES.min (num_pixels / 4) < num_splines then
    Except.error (SplineError.tooManySplines num_splines)
  else
    let start_points := (List.range num_splines).map (start_point_at reads)
    let quant_adjust := unpack_signed (reads (2 * num_splines + 1) % u32_size)
    match decode_spline_list reads num_pixels start_points (2 * num_splines + 2) with
    | Except.error e => Except.error e
    | Except.ok qs => Except.ok { quant_splines := qs, quant_adjust := quant_adjust }

/-! ## Spline geometry (spline.rs 25-43, 139-303, 323-365)

f32 coordinates are idealised as real numbers; `sqrt` and `powf` are the
real functions, divisions follow the total field division (the source's
float divisions cannot panic, so no Option is needed there).  Rust slice
indexing, which panics out of bounds, is modelled with `Option`: `none`
is a panic. -/

/-- 2D point (spline.rs 26-30). -/
structure Point where
  x : ℝ
  y : ℝ
deriving Inhabited

instance : Add Point := ⟨fun p q => ⟨p.x + q.x, p.y + q.y⟩⟩

instance : Sub Point := ⟨fun p q => ⟨p.x - q.x, p.y - q.y⟩⟩

instance : HMul Point ℝ Point := ⟨fun p r => ⟨p.x * r, p.y * r⟩⟩

def Point.mirror (p center : Point) : Point :=
  ⟨center.x + center.x - p.x, center.y + center.y - p.y⟩

def Point.norm_squared (p : Point) : ℝ :=
  p.x * p.x + p.y * p.y

noncomputable def Point.norm (p : Point) : ℝ :=
  Real.sqrt p.norm_squared

/-- Decoded spline (spline.rs 33-38). -/
structure Spline where
  points : List Point
  xyb_dct : Fin 3 → Fin 32 → ℝ
  sigma_dct : Fin 32 → ℝ

/-- Arc sample (spline.rs 40-43). -/
structure SplineArc where
  point : Point
  length : ℝ

/-- Control-point reconstruction loop of `QuantSpline::dequant`
(spline.rs 145-158): from the running pair `(cur_value, cur_delta)` and
the remaining deltas, produce the emitted points (excluding the
already-pushed first one) and the final `manhattan_distance` accumulator.
The `+=` on the i32 pairs wraps (release mode), the abs-sum is i32
arithmetic cast to u64, and the u64 accumulator wraps mod 2^64. -/
def dequant_points_go : (ℤ × ℤ) → (ℤ × ℤ) → ℕ → List (ℤ × ℤ) → List (ℤ × ℤ) × ℕ
  | _, _, manhattan, [] => ([], manhattan)
  | cur_value, cur_delta, manhattan, delta :: rest =>
    let cur_delta' := wadd cur_delta delta
    let manhattan' := (manhattan + i32_one_norm cur_delta') % u64_size
    let cur_value' := wadd cur_value cur_delta'
    let (pts, m) := dequant_points_go cur_value' cur_delta' manhattan' rest
    (cur_value' :: pts, m)

/-- Integer control points and manhattan accumulator of
`QuantSpline::dequant` (spline.rs 145-158): the start point is pushed
first, then the loop above runs with `cur_delta = (0,0)`. -/
def dequant_points (start : ℤ × ℤ) (deltas : List (ℤ × ℤ)) : List (ℤ × ℤ) × ℕ :=
  let (pts, manhattan) := dequant_points_go start (0, 0) 0 deltas
  (start :: pts, manhattan)

def CHANNEL_WEIGHTS : Fin 4 → ℝ :=
  ![0.0042, 0.075, 0.07, 0.3333]

def log2_ceil (x : ℕ) : ℕ :=
  Nat.log 2 (2 ^ Nat.clog 2 x)

/-- Embedding of `QuantSpline::dequant` (spline.rs 139-217).  Returns the
decoded spline together with the updated `estimated_area` out-parameter
(u64 arithmetic modelled on ℕ; the f32 `ceil ... as u64` steps are the
nonnegative real ceiling). -/
noncomputable def QuantSpline.dequant (sp : QuantSpline) (quant_adjust : ℤ)
    (base_correlations_xb : Option (ℝ × ℝ)) (estimated_area : ℕ) : Spline × ℕ :=
  let (int_points, manhattan_distance) := dequant_points sp.start_point sp.points_deltas
  let points := int_points.map fun v => Point.mk (v.1 : ℝ) (v.2 : ℝ)
  let inverted_qa : ℝ :=
    if 0 ≤ quant_adjust then 1 / (1 + (quant_adjust : ℝ) / 8) else 1 - (quant_adjust : ℝ) / 8
  let xyb0 : Fin 3 → Fin 32 → ℝ := fun c i =>
    (sp.xyb_dct c i : ℝ) * CHANNEL_WEIGHTS c.castSucc * inverted_qa
  let corr := base_correlations_xb.getD (0, 1)
  let xyb : Fin 3 → Fin 32 → ℝ := fun c i =>
    if c.val = 0 then xyb0 c i + corr.1 * xyb0 1 i
    else if c.val = 2 then xyb0 c i + corr.2 * xyb0 1 i
    else xyb0 c i
  let color_xyb0 : Fin 3 → ℕ := fun c =>
    Finset.univ.sum fun i : Fin 32 => ⌈(|(sp.xyb_dct c i : ℝ)| * inverted_qa)⌉₊
  let color_xyb : Fin 3 → ℕ := fun c =>
    if c.val = 0 then color_xyb0 c + ⌈|corr.1|⌉₊ * color_xyb0 1
    else if c.val = 2 then color_xyb0 c + ⌈|corr.2|⌉₊ * color_xyb0 1
    else color_xyb0 c
  let log_color := Nat.max 1 (log2_ceil (1 + Nat.max (color_xyb 0) (Nat.max (color_xyb 1) (color_xyb 2))))
  let sigma_dct : Fin 32 → ℝ := fun i => (sp.sigma_dct i : ℝ) * CHANNEL_WEIGHTS 3 * inverted_qa
  let width_estimate :=
    Finset.univ.sum fun i : Fin 32 =>
      (Nat.max 1 ⌈(|(sp.sigma_dct i : ℝ)| * inverted_qa)⌉₊) ^ 2 * log_color
  ({ points := points, xyb_dct := xyb, sigma_dct := sigma_dct },
   estimated_area + width_estimate * manhattan_distance)

/-- The 4-point window `extended[i..i+4]` (spline.rs 282); `none` models the
out-of-bounds panic of the slice copy. -/
def catmull_window (ext : List Point) (i : ℕ) : Option (Point × Point × Point × Point) :=
  match ext.get? i, ext.get? (i + 1), ext.get? (i + 2), ext.get? (i + 3) with
  | some p0, some p1, some p2, some p3 => some (p0, p1, p2, p3)
  | _, _, _, _ => none

/-- One iteration of the upsampling loop body (spline.rs 276-299): emit
`p[1]` and the 15 centripetal Catmull-Rom interpolation steps. -/
noncomputable def upsample_segment (p0 p1 p2 p3 : Point) : List Point :=
  let t0 : ℝ := 0
  let t1 := t0 + (p1 - p0).norm_squared ^ (0.25 : ℝ)
  let t2 := t1 + (p2 - p1).norm_squared ^ (0.25 : ℝ)
  let t3 := t2 + (p3 - p2).norm_squared ^ (0.25 : ℝ)
  p1 :: (List.range 15).map fun j =>
    let knot := t1 + (((j : ℝ) + 1) / 16) * (t2 - t1)
    let a0 := p0 + (p1 - p0) * ((knot - t0) / (t1 - t0))
    let a1 := p1 + (p2 - p1) * ((knot - t1) / (t2 - t1))
    let a2 := p2 + (p3 - p2) * ((knot - t2) / (t3 - t2))
    let b0 := a0 + (a1 - a0) * ((knot - t0) / (t2 - t0))
    let b1 := a1 + (a2 - a1) * ((knot - t1) / (t3 - t1))
    b0 + (b1 - b0) * ((knot - t1) / (t2 - t1))

/-- The upsampling loop over all window indices; `none` if any window access
is out of bounds. -/
noncomputable def upsample_windows (ext : List Point) : List ℕ → Option (List Point)
  | [] => some []
  | i :: rest =>
    match catmull_window ext i with
    | none => none
    | some (p0, p1, p2, p3) =>
      match upsample_windows ext rest with
      | none => none
      | some tail => some (upsample_segment p0 p1 p2 p3 ++ tail)

/-- Embedding of `Spline::get_upsampled_points` (spline.rs 262-303).  The
indexed accesses `s[1]`, `s[0]`, `s[len-2]`, `s[len-1]` are checked;
`none` models a panic. -/
noncomputable def get_upsampled_points (s : List Point) : Option (List Point) :=
  if s.length = 1 then (s.get? 0).map fun p => [p]
  else
    match s.get? 1, s.get? 0, s.get? (s.length - 2), s.get? (s.length - 1) with
    | some s1, some s0, some spen, some slast =>
      let extended := Point.mirror s1 s0 :: (s ++ [Point.mirror spen slast])
      match upsample_windows extended (List.range (extended.length - 3)) with
      | none => none
      | some upsampled => some (upsampled ++ [slast])
    | _, _, _, _ => none

/-- Result of the arc-length sampling loop: `ok` is normal termination,
`oob` an out-of-bounds panic, `noFuel` exhaustion of the termination fuel
(the source's while-loop has no structural termination measure). -/
inductive SampleResult
  | ok (arcs : List SplineArc)
  | oob
  | noFuel

/-- The fused while/loop of `Spline::get_samples` (spline.rs 231-258).
`next_idx < len` is the complement of the inner loop's break test, checked
consecutively with no state change between them in the source, so the two
loops fuse into one recursion: the `≥ 1` branch emits a unit arc and
restarts with `arclength = 0`, the other branch advances `next_idx`, and
exhaustion of the points emits the residual arc and stops. -/
noncomputable def sample_loop (up : List Point) :
    ℕ → ℝ → ℕ → Point → List SplineArc → SampleResult
  | 0, _, _, _, _ => SampleResult.noFuel
  | fuel + 1, arclength, next_idx, prev, samples =>
    if next_idx < up.length then
      let next := up.getD next_idx default
      let arclength_to_next := (next - prev).norm
      if 1 ≤ arclength + arclength_to_next then
        let current := prev + (next - prev) * ((1 - arclength) / arclength_to_next)
        sample_loop up fuel 0 next_idx current
          (samples ++ [{ point := current, length := 1 }])
      else
        sample_loop up fuel (arclength + arclength_to_next) (next_idx + 1) next samples
    else
      SampleResult.ok (samples ++ [{ point := prev, length := arclength }])

/-- Embedding of `Spline::get_samples` (spline.rs 221-260): upsample, seed
the sample list with an arc of length 1 at `upsampled_points[0]` (a panic
if the upsampled list is empty), then run the loop.  When the source's
initial while-condition is false the list is empty and `[0]` has already
panicked, so the fused loop is entered directly. -/
noncomputable def Spline.get_samples (sp : Spline) (fuel : ℕ) : SampleResult :=
  match get_upsampled_points sp.points with
  | none => SampleResult.oob
  | some upsampled_points =>
    match upsampled_points with
    | [] => SampleResult.oob
    | current :: _ =>
      sample_loop upsampled_points fuel 0 0 current
        [{ point := current, length := 1 }]

/-- Number of arcs of a successful sampling run (observer used to state
counting facts about `get_samples`). -/
def num_arcs : SampleResult → Option ℕ
  | SampleResult.ok arcs => some arcs.length
  | _ => none

/-! ## Frame loader (lib.rs)

Abstractions, in the order they appear in the source's imports:
  * `B` is the opaque type of section byte buffers; the bitstream is a map
    `stream : ℕ → B` from a TOC offset to the bytes read there
    (`skip_to_bookmark` + `read_bytes_aligned` of the entry's size), so a
    buffered section is by construction preserved verbatim;
  * `M` is the opaque global-modular image type (jxl-modular, external);
    `has_delta_palette`/`has_squeeze` are its flags, and
    `copy_from_modular`/the inverse transform its completion operations;
  * the per-section parsers (`LfGlobal`/`LfGroup`/`PassGroup` bundles,
    external crates) are oracles returning `Except E _`; `read_hf_global`
    is `todo!()` for VarDCT frames in the source, modelled as a panic;
  * Rust panics (`unwrap`, `expect`, `unreachable!`, `todo!`) are the
    explicit error `LoadErr.panic`;
  * a `BTreeMap` is a key-sorted association list built by `map_insert`. -/

/-- TocGroupKind, modelled from the spec:
`kind ∈ {All, LfGlobal, LfGroup(idx), HfGlobal, GroupPass{pass_idx, group_idx}}`. -/
inductive TocGroupKind
  | all
  | lfGlobal
  | lfGroup (lf_group_idx : ℕ)
  | hfGlobal
  | groupPass (pass_idx : ℕ) (group_idx : ℕ)
deriving DecidableEq

/-- TocGroup, modelled from the spec: `{ kind, offset, size }` with absolute
bitstream offsets. -/
structure TocGroup where
  kind : TocGroupKind
  offset : ℕ
  size : ℕ
deriving DecidableEq

structure LfGlobal (M : Type) where
  gmodular : M
deriving DecidableEq

structure LfGroup (M : Type) where
  mlf_group : M
deriving DecidableEq

structure PassGroup (M : Type) where
  modular : M
deriving DecidableEq

/-- Sorted-insert into an association list, replacing an existing binding
(the `BTreeMap::insert` of the source); `lt` is the strict key order. -/
def map_insert {κ ν : Type} [DecidableEq κ] (lt : κ → κ → Bool) (k : κ) (v : ν) :
    List (κ × ν) → List (κ × ν)
  | [] => [(k, v)]
  | (k', v') :: rest =>
    if k = k' then (k, v) :: rest
    else if lt k k' then (k, v) :: (k', v') :: rest
    else (k', v') :: map_insert lt k v rest

def nat_lt (a b : ℕ) : Bool := decide (a < b)

def nat2_lt (a b : ℕ × ℕ) : Bool :=
  decide (a.1 < b.1 ∨ (a.1 = b.1 ∧ a.2 < b.2))

def kind_lt (a b : TocGroupKind) : Bool :=
  match a, b with
  | TocGroupKind.all, TocGroupKind.all => false
  | TocGroupKind.all, _ => true
  | TocGroupKind.lfGlobal, TocGroupKind.all => false
  | TocGroupKind.lfGlobal, TocGroupKind.lfGlobal => false
  | TocGroupKind.lfGlobal, _ => true
  | TocGroupKind.lfGroup i, TocGroupKind.lfGroup j => nat_lt i j
  | TocGroupKind.lfGroup _, TocGroupKind.hfGlobal => true
  | TocGroupKind.lfGroup _, TocGroupKind.groupPass _ _ => true
  | TocGroupKind.lfGroup _, _ => false
  | TocGroupKind.hfGlobal, TocGroupKind.groupPass _ _ => true
  | TocGroupKind.hfGlobal, _ => false
  | TocGroupKind.groupPass p g, TocGroupKind.groupPass q h => nat2_lt (p, g) (q, h)
  | TocGroupKind.groupPass _ _, _ => false

/-- FrameData (lib.rs 451-457). -/
structure FrameData (M HfG : Type) where
  lf_global : Option (LfGlobal M)
  lf_group : List (ℕ × LfGroup M)
  hf_global : Option (Option HfG)
  group_pass : List ((ℕ × ℕ) × PassGroup M)
deriving DecidableEq

/-- The loader-visible state of a `Frame`: its data store plus the
`pending_groups` buffer map (lib.rs 17-25). -/
structure FrameState (M HfG B : Type) where
  data : FrameData M HfG
  pending_groups : List (TocGroupKind × B)
deriving DecidableEq

/-- `FrameData::new` (lib.rs 460-474): `hf_global` is pre-set to
absent-by-design unless the frame is VarDCT. -/
def FrameData.new (M HfG : Type) (is_vardct : Bool) : FrameData M HfG :=
  { lf_global := none
    lf_group := []
    hf_global := if is_vardct then none else some none
    group_pass := [] }

inductive LoadErr (E : Type)
  | parse (e : E)
  | panic
deriving DecidableEq

/-- External collaborators of the frame loader, plus the frame-header
fields it reads (header parsing is an external crate; the fields are
modelled from the spec). -/
structure LoaderCtx (B M HfG E : Type) where
  stream : ℕ → B
  parse_lf_global : B → Except E (LfGlobal M)
  parse_lf_group : LfGlobal M → ℕ → B → Except E (LfGroup M)
  parse_group_pass : LfGlobal M → Option HfG → ℕ → ℕ → B → Except E (PassGroup M)
  is_vardct : Bool
  has_delta_palette : M → Bool
  has_squeeze : M → Bool
  have_crop : Bool
  x0 : ℤ
  y0 : ℤ
  lf_group_dim : ℕ
  lf_groups_per_row : ℕ
  group_dim : ℕ
  groups_per_row : ℕ

/-- A crop region `(left, top, width, height)` in u32 coordinates. -/
def Region : Type := ℕ × ℕ × ℕ × ℕ

instance : DecidableEq Region := by
  unfold Region
  infer_instance

/-- `u32::saturating_add_signed` (lib.rs 85-86). -/
def sat_add_signed (u : ℕ) (i : ℤ) : ℕ :=
  (((u : ℤ) + i).toNat).min (u32_size - 1)

/-- `is_aabb_collides` (lib.rs 502-506); u32 sums wrap. -/
def is_aabb_collides (rect0 rect1 : Region) : Bool :=
  let (x0, y0, w0, h0) := rect0
  let (x1, y1, w1, h1) := rect1
  decide (x0 < (x1 + w1) % u32_size) && decide (x1 < (x0 + w0) % u32_size) &&
    decide (y0 < (y1 + h1) % u32_size) && decide (y1 < (y0 + h0) % u32_size)

namespace Loader

variable {B M HfG E : Type}

/-- Translation of a requested region into frame-local coordinates
(lib.rs 83-92). -/
def translate_region (ctx : LoaderCtx B M HfG E) (region : Option Region) : Option Region :=
  if region.isSome && ctx.have_crop then
    region.map fun r =>
      (sat_add_signed r.1 (-ctx.x0), sat_add_signed r.2.1 (-ctx.y0), r.2.2.1, r.2.2.2)
  else region

/-- Diagnostics emitted on stderr by the crop planner. -/
inductive Diag
  | deltaPalette
  | squeeze
  | cropped
deriving DecidableEq

/-- The crop-planner adjustment for global modular transforms
(lib.rs 108-124): delta palette drops the region, squeeze grows it to the
origin (u32 additions wrap); each emits a diagnostic, and a remaining
region is logged as cropped. -/
def adjust_region_for_modular (ctx : LoaderCtx B M HfG E) (lf_global : LfGlobal M)
    (region : Option Region) : Option Region × List Diag :=
  let (region', diags) :=
    if ctx.has_delta_palette lf_global.gmodular then
      match region with
      | some _ => ((none : Option Region), [Diag.deltaPalette])
      | none => (none, [])
    else if ctx.has_squeeze lf_global.gmodular then
      match region with
      | some (left, top, width, height) =>
        (some (0, 0, (width + left) % u32_size, (height + top) % u32_size), [Diag.squeeze])
      | none => (none, [])
    else (region, [])
  (region', diags ++ if region'.isSome then [Diag.cropped] else [])

/-- `read_hf_global` (lib.rs 345-353): `todo!()` for VarDCT, `Ok(None)`
otherwise. -/
def read_hf_global (ctx : LoaderCtx B M HfG E) : Except (LoadErr E) (Option HfG) :=
  if ctx.is_vardct then Except.error LoadErr.panic else Except.ok none

/-- `Frame::read_group` (lib.rs 368-419): dispatch on the section kind;
sections whose dependencies are missing are parked verbatim in
`pending_groups`; `try_pending_blocks` (lib.rs 421-424) is a no-op. -/
def read_group (ctx : LoaderCtx B M HfG E) (st : FrameState M HfG B) (g : TocGroup) (buf : B) :
    FrameState M HfG B × Option (LoadErr E) :=
  match g.kind with
  | TocGroupKind.all =>
    match ctx.parse_lf_global buf with
    | Except.error e => (st, some (LoadErr.parse e))
    | Except.ok lf_global =>
      match ctx.parse_lf_group lf_global 0 buf with
      | Except.error e => (st, some (LoadErr.parse e))
      | Except.ok lf_group =>
        match read_hf_global ctx with
        | Except.error e => (st, some e)
        | Except.ok hf_global =>
          match ctx.parse_group_pass lf_global hf_global 0 0 buf with
          | Except.error e => (st, some (LoadErr.parse e))
          | Except.ok group_pass =>
            ({ st with data :=
                { lf_global := some lf_global
                  lf_group := map_insert nat_lt 0 lf_group st.data.lf_group
                  hf_global := some hf_global
                  group_pass := map_insert nat2_lt (0, 0) group_pass st.data.group_pass } },
             none)
  | TocGroupKind.lfGlobal =>
    match ctx.parse_lf_global buf with
    | Except.error e => (st, some (LoadErr.parse e))
    | Except.ok lf_global =>
      ({ st with data := { st.data with lf_global := some lf_global } }, none)
  | TocGroupKind.lfGroup lf_group_idx =>
    match st.data.lf_global with
    | none =>
      ({ st with pending_groups := map_insert kind_lt g.kind buf st.pending_groups }, none)
    | some lf_global =>
      match ctx.parse_lf_group lf_global lf_group_idx buf with
      | Except.error e => (st, some (LoadErr.parse e))
      | Except.ok lf_group =>
        ({ st with data :=
            { st.data with lf_group := map_insert nat_lt lf_group_idx lf_group st.data.lf_group } },
         none)
  | TocGroupKind.hfGlobal =>
    match read_hf_global ctx with
    | Except.error e => (st, some e)
    | Except.ok hf_global =>
      ({ st with data := { st.data with hf_global := some hf_global } }, none)
  | TocGroupKind.groupPass pass_idx group_idx =>
    match st.data.lf_global, st.data.hf_global with
    | some lf_global, some hf_global =>
      match ctx.parse_group_pass lf_global hf_global pass_idx group_idx buf with
      | Except.error e => (st, some (LoadErr.parse e))
      | Except.ok group_pass =>
        ({ st with data :=
            { st.data with
              group_pass := map_insert nat2_lt (pass_idx, group_idx) group_pass st.data.group_pass } },
         none)
    | _, _ =>
      ({ st with pending_groups := map_insert kind_lt g.kind buf st.pending_groups }, none)

/-- Serial walk of the TOC in bitstream order (`load_all`'s loop,
lib.rs 171-174): seek to each section's offset, `read_group` it, abort on
the first error. -/
def load_all_go (ctx : LoaderCtx B M HfG E) :
    FrameState M HfG B → List TocGroup → FrameState M HfG B × Option (LoadErr E)
  | st, [] => (st, none)
  | st, g :: rest =>
    match read_group ctx st g (ctx.stream g.offset) with
    | (st', none) => load_all_go ctx st' rest
    | (st', some e) => (st', some e)

/-- `Frame::load_all` (lib.rs 163-177).  A single-entry TOC reads the one
combined section; otherwise every section is read in bitstream order. -/
def load_all (ctx : LoaderCtx B M HfG E) (st : FrameState M HfG B) (toc : List TocGroup) :
    FrameState M HfG B × Option (LoadErr E) :=
  if toc.length = 1 then
    match toc with
    | [g] => read_group ctx st g (ctx.stream g.offset)
    | _ => (st, some LoadErr.panic)
  else load_all_go ctx st toc

/-- First loop of `load_cropped` (lib.rs 94-106): sections before LF-global
are read as raw bytes and pushed onto the local pending list; LF-global is
parsed and the loop breaks.  Returns the state, the pending buffers, the
unconsumed iterator tail, and the error if `read_group` failed. -/
def load_loop1 (ctx : LoaderCtx B M HfG E) :
    FrameState M HfG B → List TocGroup → List (TocGroup × B) →
    FrameState M HfG B × List (TocGroup × B) × List TocGroup × Option (LoadErr E)
  | st, [], pending => (st, pending, [], none)
  | st, g :: rest, pending =>
    if g.kind = TocGroupKind.lfGlobal then
      match read_group ctx st g (ctx.stream g.offset) with
      | (st', none) => (st', pending, rest, none)
      | (st', some e) => (st', pending, rest, some e)
    else load_loop1 ctx st rest (pending ++ [(g, ctx.stream g.offset)])

/-- The per-group crop filter of the second loop (lib.rs 127-149):
a per-group section outside the region is skipped. -/
def skip_by_region (ctx : LoaderCtx B M HfG E) (region : Option Region) (g : TocGroup) : Bool :=
  match region with
  | none => false
  | some r =>
    match g.kind with
    | TocGroupKind.lfGroup lf_group_idx =>
      let group_left := lf_group_idx % ctx.lf_groups_per_row * ctx.lf_group_dim
      let group_top := lf_group_idx / ctx.lf_groups_per_row * ctx.lf_group_dim
      !is_aabb_collides r (group_left, group_top, ctx.lf_group_dim, ctx.lf_group_dim)
    | TocGroupKind.groupPass _ group_idx =>
      let group_left := group_idx % ctx.groups_per_row * ctx.group_dim
      let group_top := group_idx / ctx.groups_per_row * ctx.group_dim
      !is_aabb_collides r (group_left, group_top, ctx.group_dim, ctx.group_dim)
    | _ => false

/-- Second loop of `load_cropped` (lib.rs 126-158): the pending buffers
(with their preserved bytes) chained with the remaining TOC entries (read
from the stream); filtered sections are skipped, the rest go through
`read_group`. -/
def load_loop2 (ctx : LoaderCtx B M HfG E) (region : Option Region) :
    FrameState M HfG B → List (TocGroup × Option B) → FrameState M HfG B × Option (LoadErr E)
  | st, [] => (st, none)
  | st, (g, buf) :: rest =>
    if skip_by_region ctx region g then load_loop2 ctx region st rest
    else
      match read_group ctx st g (buf.getD (ctx.stream g.offset)) with
      | (st', none) => load_loop2 ctx region st' rest
      | (st', some e) => (st', some e)

/-- `Frame::load_cropped` (lib.rs 72-161). -/
def load_cropped (ctx : LoaderCtx B M HfG E) (st : FrameState M HfG B) (toc : List TocGroup)
    (region : Option Region) : FrameState M HfG B × Option (LoadErr E) :=
  if toc.length = 1 then
    match toc with
    | [g] => read_group ctx st g (ctx.stream g.offset)
    | _ => (st, some LoadErr.panic)
  else
    let region := translate_region ctx region
    match load_loop1 ctx st toc [] with
    | (st1, _, _, some e) => (st1, some e)
    | (st1, pending, rest, none) =>
      match st1.data.lf_global with
      | none => (st1, some LoadErr.panic)
      | some lf_global =>
        let region := (adjust_region_for_modular ctx lf_global region).1
        load_loop2 ctx region st1
          (pending.map (fun pb => (pb.1, some pb.2)) ++ rest.map fun g => (g, (none : Option B)))

/-- Outcome of the parallel loader's initial drain (lib.rs 211-238): the
parsed LF-global, the HF-global slot, the LF-group and pass-group buffers
forwarded to the channels, and the unconsumed TOC tail; or the first
error. -/
inductive DrainResult (B M HfG E : Type)
  | ok (lf_global : LfGlobal M) (hf_global : Option HfG)
      (lf_bufs : List (ℕ × B)) (pass_bufs : List ((ℕ × ℕ) × B))
      (rest : List TocGroup)
  | fail (e : LoadErr E)

/-- The drain loop of `load_cropped_par` (lib.rs 211-238): while either
global is still unknown (the while-condition, checked first), walk the
TOC; LF-group/pass-group buffers are forwarded to the channels, an
exhausted iterator is the `expect` panic, an `All` section the
`unreachable!()`. -/
def drain_loop (ctx : LoaderCtx B M HfG E) (lf_global? : Option (LfGlobal M))
    (hf_global? : Option (Option HfG)) (lf_bufs : List (ℕ × B))
    (pass_bufs : List ((ℕ × ℕ) × B)) (toc : List TocGroup) : DrainResult B M HfG E :=
  match lf_global?, hf_global? with
  | some lf_global, some hf_global =>
    DrainResult.ok lf_global hf_global lf_bufs pass_bufs toc
  | lf_global?, hf_global? =>
    match toc with
    | [] => DrainResult.fail LoadErr.panic
    | g :: rest =>
      match g.kind with
      | TocGroupKind.lfGlobal =>
        match ctx.parse_lf_global (ctx.stream g.offset) with
        | Except.error e => DrainResult.fail (LoadErr.parse e)
        | Except.ok lf_global =>
          drain_loop ctx (some lf_global) hf_global? lf_bufs pass_bufs rest
      | TocGroupKind.hfGlobal =>
        match read_hf_global ctx with
        | Except.error e => DrainResult.fail e
        | Except.ok hf_global =>
          drain_loop ctx lf_global? (some hf_global) lf_bufs pass_bufs rest
      | TocGroupKind.lfGroup lf_group_idx =>
        drain_loop ctx lf_global? hf_global? (lf_bufs ++ [(lf_group_idx, ctx.stream g.offset)])
          pass_bufs rest
      | TocGroupKind.groupPass pass_idx group_idx =>
        drain_loop ctx lf_global? hf_global? lf_bufs
          (pass_bufs ++ [((pass_idx, group_idx), ctx.stream g.offset)]) rest
      | TocGroupKind.all => DrainResult.fail LoadErr.panic

/-- The LF-group worker (lib.rs 268-286): filter by region, parse each
buffer, collect into a key-sorted map, abort on the first error. -/
def worker_lf (ctx : LoaderCtx B M HfG E) (region : Option Region) (lf_global : LfGlobal M) :
    List (ℕ × LfGroup M) → List (ℕ × B) → Except E (List (ℕ × LfGroup M))
  | acc, [] => Except.ok acc
  | acc, (lf_group_idx, buf) :: rest =>
    if skip_by_region ctx region { kind := TocGroupKind.lfGroup lf_group_idx, offset := 0, size := 0 } then
      worker_lf ctx region lf_global acc rest
    else
      match ctx.parse_lf_group lf_global lf_group_idx buf with
      | Except.error e => Except.error e
      | Except.ok v => worker_lf ctx region lf_global (map_insert nat_lt lf_group_idx v acc) rest

/-- The pass-group worker (lib.rs 287-305). -/
def worker_pass (ctx : LoaderCtx B M HfG E) (region : Option Region) (lf_global : LfGlobal M)
    (hf_global : Option HfG) :
    List ((ℕ × ℕ) × PassGroup M) → List ((ℕ × ℕ) × B) → Except E (List ((ℕ × ℕ) × PassGroup M))
  | acc, [] => Except.ok acc
  | acc, ((pass_idx, group_idx), buf) :: rest =>
    if skip_by_region ctx region
        { kind := TocGroupKind.groupPass pass_idx group_idx, offset := 0, size := 0 } then
      worker_pass ctx region lf_global hf_global acc rest
    else
      match ctx.parse_group_pass lf_global hf_global pass_idx group_idx buf with
      | Except.error e => Except.error e
      | Except.ok v =>
        worker_pass ctx region lf_global hf_global
          (map_insert nat2_lt (pass_idx, group_idx) v acc) rest

/-- The post-drain feed loop (lib.rs 307-319): remaining LF-group and
pass-group buffers are forwarded to the channels, anything else is read
and ignored. -/
def collect_lf_bufs (ctx : LoaderCtx B M HfG E) (toc : List TocGroup) : List (ℕ × B) :=
  toc.filterMap fun g =>
    match g.kind with
    | TocGroupKind.lfGroup lf_group_idx => some (lf_group_idx, ctx.stream g.offset)
    | _ => none

def collect_pass_bufs (ctx : LoaderCtx B M HfG E) (toc : List TocGroup) :
    List ((ℕ × ℕ) × B) :=
  toc.filterMap fun g =>
    match g.kind with
    | TocGroupKind.groupPass pass_idx group_idx =>
      some ((pass_idx, group_idx), ctx.stream g.offset)
    | _ => none

/-- `Frame::load_cropped_par` (lib.rs 179-329).  The two globals are taken
out of `data` (left `None` on early error paths), reinstalled after the
drain; the workers' maps are assigned into `data` one after the other, so
an error from the pass worker still leaves the LF map installed. -/
def load_cropped_par (ctx : LoaderCtx B M HfG E) (st : FrameState M HfG B)
    (toc : List TocGroup) (region : Option Region) :
    FrameState M HfG B × Option (LoadErr E) :=
  if toc.length = 1 then
    match toc with
    | [g] => read_group ctx st g (ctx.stream g.offset)
    | _ => (st, some LoadErr.panic)
  else
    let region := translate_region ctx region
    let lf_global0 := st.data.lf_global
    let hf_global0 := st.data.hf_global
    let st1 : FrameState M HfG B :=
      { st with data := { st.data with lf_global := none, hf_global := none } }
    match drain_loop ctx lf_global0 hf_global0 [] [] toc with
    | DrainResult.fail e => (st1, some e)
    | DrainResult.ok lf_global hf_global lf_bufs pass_bufs rest =>
      let st2 : FrameState M HfG B :=
        { st1 with data :=
            { st1.data with lf_global := some lf_global, hf_global := some hf_global } }
      let region := (adjust_region_for_modular ctx lf_global region).1
      let lf_bufs := lf_bufs ++ collect_lf_bufs ctx rest
      let pass_bufs := pass_bufs ++ collect_pass_bufs ctx rest
      match worker_lf ctx region lf_global [] lf_bufs with
      | Except.error e => (st2, some (LoadErr.parse e))
      | Except.ok lf_groups =>
        let st3 : FrameState M HfG B :=
          { st2 with data := { st2.data with lf_group := lf_groups } }
        match worker_pass ctx region lf_global hf_global [] pass_bufs with
        | Except.error e => (st3, some (LoadErr.parse e))
        | Except.ok pass_groups =>
          ({ st3 with data := { st3.data with group_pass := pass_groups } }, none)

/-- `Frame::load_all_par` (lib.rs 331-334). -/
def load_all_par (ctx : LoaderCtx B M HfG E) (st : FrameState M HfG B) (toc : List TocGroup) :
    FrameState M HfG B × Option (LoadErr E) :=
  load_cropped_par ctx st toc none

end Loader

/-! ## FrameData completion (lib.rs 476-499) -/

/-- The external modular-image operations used by `complete`, modelled from
the spec: `copy_from_modular` re-homes a per-group sub-image into the
whole-frame image, and the inverse modular transform finishes assembly
(jxl-modular is not under src/). -/
structure ModularOps (M : Type) where
  copy_from_modular : M → M → M
  apply_inverse_transform : M → M

inductive CompleteErrField
  | lf_global
deriving DecidableEq

inductive CompleteErr
  | incompleteFrameData (field : CompleteErrField)
deriving DecidableEq

/-- `FrameData::complete` (lib.rs 476-499): error if `lf_global` is absent;
otherwise drain both group maps into the global modular image in key
order and apply the inverse transform.  Mutation of `&mut self` is
modelled by returning the post-state next to the optional error. -/
def FrameData.complete {M HfG : Type} (ops : ModularOps M) (fd : FrameData M HfG) :
    FrameData M HfG × Option CompleteErr :=
  match fd.lf_global with
  | none => (fd, some (CompleteErr.incompleteFrameData CompleteErrField.lf_global))
  | some lf_global =>
    let g1 := fd.lf_group.foldl (fun g kv => ops.copy_from_modular g kv.2.mlf_group)
      lf_global.gmodular
    let g2 := fd.group_pass.foldl (fun g kv => ops.copy_from_modular g kv.2.modular) g1
    ({ lf_global := some { gmodular := ops.apply_inverse_transform g2 }
       lf_group := []
       hf_global := fd.hf_global
       group_pass := [] },
     none)

/-! ## Spec-side observers and concrete instances used by the theorems -/

/-- The claim's ideal-integer reading of the running delta sum: the sum of
the first `j` deltas on unbounded ℤ, without the i32 wrapping the source
performs. -/
def cum_delta (deltas : List (ℤ × ℤ)) (j : ℕ) : ℤ × ℤ :=
  (deltas.take j).sum

/-- The claim's ideal-integer reading of the k-th control point: the start
point plus the running sums of the deltas, on unbounded ℤ. -/
def reconstructed_point (start : ℤ × ℤ) (deltas : List (ℤ × ℤ)) (k : ℕ) : ℤ × ℤ :=
  start + Finset.sum (Finset.range k) fun j => cum_delta deltas (j + 1)

/-- The `(cur_value, cur_delta)` state after the first `k` iterations of
the `dequant` control-point loop (spline.rs 150-157), with the i32
wrapping additions of the source. -/
def dequant_state (cv cd : ℤ × ℤ) (deltas : List (ℤ × ℤ)) (k : ℕ) : (ℤ × ℤ) × (ℤ × ℤ) :=
  (deltas.take k).foldl (fun s d => (wadd s.1 (wadd s.2 d), wadd s.2 d)) (cv, cd)

/-- The value of `cur_value` after `k` iterations of the `dequant` loop
(the k-th emitted control point, the 0th being the start point). -/
def cur_value_at (cv cd : ℤ × ℤ) (deltas : List (ℤ × ℤ)) (k : ℕ) : ℤ × ℤ :=
  (dequant_state cv cd deltas k).1

/-- The value of `cur_delta` after `k` iterations of the `dequant` loop:
the i32-wrapping running sum of the first `k` deltas. -/
def cur_delta_at (cd : ℤ × ℤ) (deltas : List (ℤ × ℤ)) (k : ℕ) : ℤ × ℤ :=
  (deltas.take k).foldl wadd cd

/-- A loader context over unit types in which every section parses
successfully; used to instantiate the loader theorems. -/
def ctx_ok : LoaderCtx Unit Unit Unit Unit :=
  { stream := fun _ => ()
    parse_lf_global := fun _ => Except.ok ⟨()⟩
    parse_lf_group := fun _ _ _ => Except.ok ⟨()⟩
    parse_group_pass := fun _ _ _ _ _ => Except.ok ⟨()⟩
    is_vardct := false
    has_delta_palette := fun _ => false
    has_squeeze := fun _ => false
    have_crop := false
    x0 := 0
    y0 := 0
    lf_group_dim := 1
    lf_groups_per_row := 1
    group_dim := 1
    groups_per_row := 1 }

/-- The same context with a failing pass-group parser. -/
def ctx_pass_fails : LoaderCtx Unit Unit Unit Unit :=
  { ctx_ok with parse_group_pass := fun _ _ _ _ _ => Except.error () }

/-- The same context whose global modular image has a delta palette. -/
def ctx_delta_palette : LoaderCtx Unit Unit Unit Unit :=
  { ctx_ok with has_delta_palette := fun _ => true }

/-- The same context whose global modular image has a squeeze transform. -/
def ctx_squeeze : LoaderCtx Unit Unit Unit Unit :=
  { ctx_ok with has_squeeze := fun _ => true }

/-- A freshly created modular-frame state. -/
def frame_state0 : FrameState Unit Unit Unit :=
  { data := FrameData.new Unit Unit false, pending_groups := [] }

/-- Out-of-order two-entry TOC: LF-group 0 before LF-global. -/
def toc_out_of_order : List TocGroup :=
  [{ kind := TocGroupKind.lfGroup 0, offset := 0, size := 1 },
   { kind := TocGroupKind.lfGlobal, offset := 1, size := 1 }]

/-- In-order two-entry TOC: LF-global, then LF-group 0. -/
def toc_in_order : List TocGroup :=
  [{ kind := TocGroupKind.lfGlobal, offset := 0, size := 1 },
   { kind := TocGroupKind.lfGroup 0, offset := 1, size := 1 }]

/-- In-order TOC whose second entry is a pass group. -/
def toc_with_pass : List TocGroup :=
  [{ kind := TocGroupKind.lfGlobal, offset := 0, size := 1 },
   { kind := TocGroupKind.groupPass 0 0, offset := 1, size := 1 }]

def ops_unit : ModularOps Unit :=
  { copy_from_modular := fun _ _ => (), apply_inverse_transform := fun _ => () }

def fd_empty : FrameData Unit Unit := FrameData.new Unit Unit false

def fd_with_lf : FrameData Unit Unit := { fd_empty with lf_global := some ⟨()⟩ }

/-- The one-control-point spline of end-to-end scenario 1. -/
noncomputable def spline_single : Spline :=
  { points := [Point.mk 10 20], xyb_dct := fun _ _ => 0, sigma_dct := fun _ => 0 }

/-! ## Theorems -/

theorem erf_inv_pow (q : ℚ) : -(1 / (q * q)) * (1 / (q * q)) + 1 = 1 - (q ^ 4)⁻¹ := by
  have h : q * q * (q * q) = q ^ 4 := by ring
  rw [one_div, neg_mul, ← mul_inv, h]
  ring

/-- Closed form of the embedded `erf`: the sign-free part is
`1 - denom⁻⁴` with `denom` the claim's Horner polynomial. -/
theorem erf_eq_closed (x : ℚ) :
    erf x = if x < 0 then -(1 - (erf_denom x ^ 4)⁻¹) else 1 - (erf_denom x ^ 4)⁻¹ := by
  have hd : (((|x| * erf_coeff_a + erf_coeff_b) * |x| + erf_coeff_c) * |x| + erf_coeff_d) * |x| + 1
      = erf_denom x := by
    unfold erf_denom
    ring
  simp only [erf]
  rw [hd, erf_inv_pow]

/-- C3 counterexample: at `x = 1` the embedded `erf` does not equal
`sign(x) * (1 - denom⁻⁸)` — the source raises the denominator to the 4th
power (`denom5 = denom4²` and `-inv_denom5 * inv_denom5`), not the 8th. -/
theorem c3_counterexample : erf 1 ≠ rsign 1 * (1 - (erf_denom 1 ^ 8)⁻¹) := by
  rw [erf_eq_closed]
  norm_num [rsign, erf_denom, erf_coeff_a, erf_coeff_b, erf_coeff_c, erf_coeff_d]

/-- C3 amended: for every input `x`, `erf x` equals
`sign(x) * (1 - denom⁻⁴)` where `denom` is the claim's Horner polynomial
`(((a|x| + b)|x| + c)|x| + d)|x| + 1` with the stated constants. -/
theorem c3_erf_closed_form (x : ℚ) : erf x = rsign x * (1 - (erf_denom x ^ 4)⁻¹) := by
  rw [erf_eq_closed]
  unfold rsign
  rcases lt_trichotomy x 0 with h | h | h
  · rw [if_pos h, if_pos h]
    ring
  · subst h
    norm_num [erf_denom, erf_coeff_a, erf_coeff_b, erf_coeff_c, erf_coeff_d]
  · rw [if_neg (by linarith), if_neg (by linarith), if_pos h]
    ring

/-- C5: `FrameData::complete` returns `IncompleteFrameData("lf_global")`
exactly when `lf_global` is `None`; in that case the data is returned
unchanged (no map is drained), and when `lf_global` is present the call
succeeds with no error. -/
theorem c5_complete_lf_global {M HfG : Type} (ops : ModularOps M) (fd : FrameData M HfG) :
    ((FrameData.complete ops fd).2 =
        some (CompleteErr.incompleteFrameData CompleteErrField.lf_global) ↔
      fd.lf_global = none) ∧
    (fd.lf_global = none → (FrameData.complete ops fd).1 = fd) ∧
    (∀ g, fd.lf_global = some g → (FrameData.complete ops fd).2 = none) := by
  rcases h : fd.lf_global with _ | g <;>
    simp [FrameData.complete, h]

theorem c5_complete_lf_global_witness :
    ((FrameData.complete ops_unit fd_empty).2 =
        some (CompleteErr.incompleteFrameData CompleteErrField.lf_global)) ∧
    (FrameData.complete ops_unit fd_empty).1 = fd_empty ∧
    (FrameData.complete ops_unit fd_with_lf).2 = none :=
  ⟨(c5_complete_lf_global ops_unit fd_empty).1.mpr rfl,
   (c5_complete_lf_global ops_unit fd_empty).2.1 rfl,
   (c5_complete_lf_global ops_unit fd_with_lf).2.2 ⟨()⟩ rfl⟩

theorem cur_value_at_zero (cv cd : ℤ × ℤ) (ds : List (ℤ × ℤ)) :
    cur_value_at cv cd ds 0 = cv := rfl

theorem cur_value_at_cons (cv cd d : ℤ × ℤ) (ds : List (ℤ × ℤ)) (k : ℕ) :
    cur_value_at cv cd (d :: ds) (k + 1) =
      cur_value_at (wadd cv (wadd cd d)) (wadd cd d) ds k := rfl

theorem cur_delta_at_cons (cd d : ℤ × ℤ) (ds : List (ℤ × ℤ)) (k : ℕ) :
    cur_delta_at cd (d :: ds) (k + 1) = cur_delta_at (wadd cd d) ds k := rfl

/-- Closed form of the `dequant` control-point loop: from state
`(cv, cd, man)` on the remaining deltas it emits, for each `k`, the
wrapped state value after `k + 1` iterations, and folds the wrapped
one-norms of the wrapped running sums into `man`. -/
theorem dequant_points_go_eq (deltas : List (ℤ × ℤ)) :
    ∀ (cv cd : ℤ × ℤ) (man : ℕ),
    dequant_points_go cv cd man deltas =
      ((List.range deltas.length).map fun k => cur_value_at cv cd deltas (k + 1),
       (List.range deltas.length).foldl
         (fun m k => (m + i32_one_norm (cur_delta_at cd deltas (k + 1))) % u64_size) man) := by
  induction deltas with
  | nil =>
    intro cv cd man
    simp [dequant_points_go]
  | cons d ds ih =>
    intro cv cd man
    simp only [dequant_points_go]
    rw [ih]
    rw [Prod.ext_iff]
    dsimp only
    constructor
    · rw [List.length_cons, List.range_succ_eq_map, List.map_cons, List.map_map]
      congr 1
    · rw [List.length_cons, List.range_succ_eq_map, List.foldl_cons, List.foldl_map]
      apply List.foldl_ext
      intro m k _
      rw [cur_delta_at_cons]

/-- The control points and the manhattan accumulator of `dequant`, as the
wrapped state recursion evaluated at each index. -/
theorem dequant_points_eq (start : ℤ × ℤ) (deltas : List (ℤ × ℤ)) :
    dequant_points start deltas =
      ((List.range (deltas.length + 1)).map (cur_value_at start (0, 0) deltas),
       (List.range deltas.length).foldl
         (fun m k => (m + i32_one_norm (cur_delta_at (0, 0) deltas (k + 1))) % u64_size) 0) := by
  unfold dequant_points
  rw [dequant_points_go_eq]
  dsimp only
  rw [Prod.ext_iff]
  dsimp only
  constructor
  · rw [List.range_succ_eq_map, List.map_cons, List.map_map]
    congr 1
  · rfl

/-- Each emitted point is the previous one plus the wrapped running delta
sum, as long as the index stays within the delta list. -/
theorem cur_value_at_recurrence (ds : List (ℤ × ℤ)) :
    ∀ (cv cd : ℤ × ℤ) (k : ℕ), k + 1 ≤ ds.length →
    cur_value_at cv cd ds (k + 1) =
      wadd (cur_value_at cv cd ds k) (cur_delta_at cd ds (k + 1)) := by
  induction ds with
  | nil =>
    intro cv cd k hk
    exact absurd hk (by simp)
  | cons d ds ih =>
    intro cv cd k hk
    cases k with
    | zero => rfl
    | succ k =>
      rw [cur_value_at_cons cv cd d ds (k + 1), cur_value_at_cons cv cd d ds k,
        cur_delta_at_cons]
      exact ih (wadd cv (wadd cd d)) (wadd cd d) k (by simpa using hk)

/-- On the deltas `(2^31 - 1, 0), (2^31 - 1, 0)` the second i32 running
sum overflows, so the third point `dequant` emits is not the ideal-integer
second-order reconstruction the claim describes. -/
theorem c8_counterexample :
    (dequant_points ((0 : ℤ), (0 : ℤ)) [((2 ^ 31 - 1 : ℤ), 0), (2 ^ 31 - 1, 0)]).1 ≠
      (List.range 3).map
        (reconstructed_point ((0 : ℤ), (0 : ℤ)) [((2 ^ 31 - 1 : ℤ), 0), (2 ^ 31 - 1, 0)]) := by
  decide

/-- C8 (corrected): for every `QuantSpline` with `n` point deltas,
`dequant` emits exactly `n + 1` control points: the start point first,
then each subsequent point is the previous point plus the running sum of
the deltas seen so far, where the running sum and the point update are
the i32 wrapping additions of the source; the `manhattan_distance`
accumulator folds the u64 cast of the i32 value `|dx| + |dy|` of each
running sum with wrapping u64 addition; for the deltas `(1,0), (1,0)` it
is `1 + 2 = 3`. -/
theorem c8_dequant_second_order (sp : QuantSpline) (qa : ℤ) (corr : Option (ℝ × ℝ)) (ea : ℕ) :
    (QuantSpline.dequant sp qa corr ea).1.points =
      ((dequant_points sp.start_point sp.points_deltas).1.map fun v =>
        Point.mk (v.1 : ℝ) (v.2 : ℝ)) ∧
    (dequant_points sp.start_point sp.points_deltas).1.length = sp.points_deltas.length + 1 ∧
    (dequant_points sp.start_point sp.points_deltas).1 =
      (List.range (sp.points_deltas.length + 1)).map
        (cur_value_at sp.start_point (0, 0) sp.points_deltas) ∧
    (∀ k, k + 1 ≤ sp.points_deltas.length →
      cur_value_at sp.start_point (0, 0) sp.points_deltas (k + 1) =
        wadd (cur_value_at sp.start_point (0, 0) sp.points_deltas k)
          (cur_delta_at (0, 0) sp.points_deltas (k + 1))) ∧
    (dequant_points sp.start_point sp.points_deltas).2 =
      (List.range sp.points_deltas.length).foldl
        (fun m k =>
          (m + i32_one_norm (cur_delta_at (0, 0) sp.points_deltas (k + 1))) % u64_size) 0 ∧
    (dequant_points sp.start_point [((1 : ℤ), (0 : ℤ)), (1, 0)]).2 = 3 := by
  refine ⟨rfl, ?_, ?_, ?_, ?_, ?_⟩
  · rw [dequant_points_eq]
    simp
  · rw [dequant_points_eq]
  · intro k hk
    exact cur_value_at_recurrence sp.points_deltas sp.start_point (0, 0) k hk
  · rw [dequant_points_eq]
  · simp only [dequant_points, dequant_points_go, wadd, wrap_i32, i32_one_norm, i32_abs,
      i32_as_u64, u64_size]
    decide

theorem c8_dequant_second_order_witness :
    (0 + 1 ≤ [((1 : ℤ), (0 : ℤ)), (1, 0)].length ∧
      cur_value_at ((0 : ℤ), (0 : ℤ)) (0, 0) [((1 : ℤ), (0 : ℤ)), (1, 0)] (0 + 1) =
        wadd (cur_value_at ((0 : ℤ), (0 : ℤ)) (0, 0) [((1 : ℤ), (0 : ℤ)), (1, 0)] 0)
          (cur_delta_at (0, 0) [((1 : ℤ), (0 : ℤ)), (1, 0)] (0 + 1))) ∧
    (dequant_points ((0 : ℤ), (0 : ℤ)) [((1 : ℤ), (0 : ℤ)), (1, 0)]).2 = 3 :=
  ⟨⟨by decide,
    (c8_dequant_second_order ⟨(0, 0), [(1, 0), (1, 0)], fun _ _ => 0, fun _ => 0⟩
        0 none 0).2.2.2.1 0 (by decide)⟩,
   (c8_dequant_second_order ⟨(0, 0), [(1, 0), (1, 0)], fun _ _ => 0, fun _ => 0⟩
      0 none 0).2.2.2.2.2⟩

/-- The only error `QuantSpline::decode` can raise is the point cap. -/
theorem quant_spline_decode_err_shape (reads : ℕ → ℕ) (np : ℕ) (start : ℤ × ℤ) (pos : ℕ)
    (e : SplineError) (h : quant_spline_decode reads np start pos = Except.error e) :
    e = SplineError.tooManySplinePoints (reads pos % u32_size) := by
  simp only [quant_spline_decode] at h
  split at h
  · exact ((Except.error.injEq _ _).mp h).symm
  · exact absurd h (by simp)

/-- The spline decode loop never raises `TooManySplines`. -/
theorem decode_spline_list_no_splines_err (reads : ℕ → ℕ) (np : ℕ) :
    ∀ (starts : List (ℤ × ℤ)) (pos n : ℕ),
    decode_spline_list reads np starts pos ≠ Except.error (SplineError.tooManySplines n) := by
  intro starts
  induction starts with
  | nil =>
    intro pos n h
    exact absurd h (by simp [decode_spline_list])
  | cons s rest ih =>
    intro pos n h
    unfold decode_spline_list at h
    cases hq : quant_spline_decode reads np s pos with
    | error e =>
      have he := quant_spline_decode_err_shape reads np s pos e hq
      subst he
      rw [hq] at h
      simp at h
    | ok qp =>
      obtain ⟨q, pos2⟩ := qp
      rw [hq] at h
      dsimp only at h
      cases hrest : decode_spline_list reads np rest pos2 with
      | error e2 =>
        rw [hrest] at h
        have he2 : e2 = SplineError.tooManySplines n := (Except.error.injEq _ _).mp h
        rw [he2] at hrest
        exact ih pos2 n hrest
      | ok qs =>
        rw [hrest] at h
        exact absurd h (by simp)

/-- C6: `Splines::parse` raises `TooManySplines(n)` exactly when the
decoded count `n = read_varint(ctx 2) + 1` exceeds
`min(2^24, num_pixels/4)`, and `QuantSpline::decode` raises
`TooManySplinePoints(m)` exactly when its decoded point count
`m = read_varint(ctx 3)` exceeds `min(2^20, num_pixels/2)`, with
`num_pixels = width * height`; at or below the caps neither error is
raised.  The hypotheses rule out the u32 wrap of `width * height`, of
`read_varint + 1` and of the point-count read, so the claim's literal
formulas for `n` and `m` apply. -/
theorem c6_spline_count_caps (reads : ℕ → ℕ) (width height pos : ℕ) (start : ℤ × ℤ)
    (hwh : width * height < u32_size) (hr0 : reads 0 + 1 < u32_size)
    (hrp : reads pos < u32_size) :
    (∀ n, splines_parse reads width height = Except.error (SplineError.tooManySplines n) ↔
      (n = reads 0 + 1 ∧ Nat.min (2 ^ 24) (width * height / 4) < n)) ∧
    (∀ m, quant_spline_decode reads (width * height) start pos =
        Except.error (SplineError.tooManySplinePoints m) ↔
      (m = reads pos ∧ Nat.min (2 ^ 20) (width * height / 2) < m)) := by
  have hnp : width * height % u32_size = width * height := Nat.mod_eq_of_lt hwh
  have hns : (reads 0 % u32_size + 1) % u32_size = reads 0 + 1 := by
    rw [Nat.mod_eq_of_lt (show reads 0 < u32_size by omega), Nat.mod_eq_of_lt hr0]
  have hm : reads pos % u32_size = reads pos := Nat.mod_eq_of_lt hrp
  constructor
  · intro n
    simp only [splines_parse, MAX_NUM_SPLINES]
    rw [hnp, hns]
    by_cases hcap : Nat.min (2 ^ 24) (width * height / 4) < reads 0 + 1
    · rw [if_pos hcap]
      constructor
      · intro h
        have hinj := (Except.error.injEq _ _).mp h
        injection hinj with hn
        exact ⟨hn.symm, hn ▸ hcap⟩
      · rintro ⟨rfl, _⟩
        rfl
    · rw [if_neg hcap]
      constructor
      · intro h
        cases hd : decode_spline_list reads (width * height)
            ((List.range (reads 0 + 1)).map (start_point_at reads)) (2 * (reads 0 + 1) + 2) with
        | error e =>
          rw [hd] at h
          have he : e = SplineError.tooManySplines n := (Except.error.injEq _ _).mp h
          rw [he] at hd
          exact absurd hd (decode_spline_list_no_splines_err reads (width * height) _ _ n)
        | ok qs =>
          rw [hd] at h
          exact absurd h (by simp)
      · rintro ⟨rfl, hc⟩
        exact absurd hc hcap
  · intro m
    simp only [quant_spline_decode, MAX_NUM_CONTROL_POINTS]
    rw [hm]
    by_cases hcap : Nat.min (2 ^ 20) (width * height / 2) < reads pos
    · rw [if_pos hcap]
      constructor
      · intro h
        have hinj := (Except.error.injEq _ _).mp h
        injection hinj with hm
        exact ⟨hm.symm, hm ▸ hcap⟩
      · rintro ⟨rfl, _⟩
        rfl
    · rw [if_neg hcap]
      constructor
      · intro h
        exact absurd h (by simp)
      · rintro ⟨rfl, hc⟩
        exact absurd hc hcap

theorem c6_spline_count_caps_witness :
    2 * 2 < u32_size ∧ 5 + 1 < u32_size ∧ 5 < u32_size ∧
    (splines_parse (fun _ => 5) 2 2 = Except.error (SplineError.tooManySplines 6) ↔
      ((6 : ℕ) = 5 + 1 ∧ Nat.min (2 ^ 24) (2 * 2 / 4) < 6)) :=
  ⟨by norm_num [u32_size], by norm_num [u32_size], by norm_num [u32_size],
   (c6_spline_count_caps (fun _ => 5) 2 2 0 (0, 0) (by norm_num [u32_size])
      (by norm_num [u32_size]) (by norm_num [u32_size])).1 6⟩

@[simp]
theorem Point.sub_x (p q : Point) : (p - q).x = p.x - q.x := rfl

@[simp]
theorem Point.sub_y (p q : Point) : (p - q).y = p.y - q.y := rfl

@[simp]
theorem norm_sub_self (p : Point) : (p - p).norm = 0 := by
  simp [Point.norm, Point.norm_squared]

theorem get_upsampled_single (p : Point) : get_upsampled_points [p] = some [p] := by
  simp [get_upsampled_points]

/-- Running the sampling loop on a one-point upsampled list: the zero-length
hop to the point itself never crosses a unit boundary, so the loop emits
the single residual arc of length 0 and stops. -/
theorem get_samples_single (p : Point) (xyb : Fin 3 → Fin 32 → ℝ) (sigma : Fin 32 → ℝ)
    (fuel : ℕ) (hf : 2 ≤ fuel) :
    Spline.get_samples ⟨[p], xyb, sigma⟩ fuel =
      SampleResult.ok [⟨p, 1⟩, ⟨p, 0⟩] := by
  obtain ⟨k, rfl⟩ : ∃ k, fuel = k + 2 := ⟨fuel - 2, by omega⟩
  unfold Spline.get_samples
  rw [show (Spline.mk [p] xyb sigma).points = [p] from rfl, get_upsampled_single]
  dsimp only
  rw [show k + 2 = (k + 1) + 1 from rfl, sample_loop]
  norm_num
  rw [sample_loop]
  norm_num

theorem sample_loop_ne_oob (up : List Point) :
    ∀ (fuel : ℕ) (a : ℝ) (n : ℕ) (prev : Point) (smp : List SplineArc),
    sample_loop up fuel a n prev smp ≠ SampleResult.oob := by
  intro fuel
  induction fuel with
  | zero =>
    intro a n prev smp h
    simp [sample_loop] at h
  | succ k ih =>
    intro a n prev smp h
    simp only [sample_loop] at h
    split at h
    · split at h
      · exact ih 0 n _ _ h
      · exact ih _ (n + 1) _ _ h
    · simp at h

theorem upsample_windows_total (ext : List Point) :
    ∀ idxs : List ℕ, (∀ i ∈ idxs, i + 3 < ext.length) →
    ∃ l, upsample_windows ext idxs = some l := by
  intro idxs
  induction idxs with
  | nil =>
    intro _
    exact ⟨[], rfl⟩
  | cons i rest ih =>
    intro hb
    have hi : i + 3 < ext.length := hb i (by simp)
    obtain ⟨tail, htail⟩ := ih fun j hj => hb j (by simp [hj])
    cases h0 : ext.get? i with
    | none => exact absurd (List.get?_eq_none.mp h0) (by omega)
    | some p0 =>
    cases h1 : ext.get? (i + 1) with
    | none => exact absurd (List.get?_eq_none.mp h1) (by omega)
    | some p1 =>
    cases h2 : ext.get? (i + 2) with
    | none => exact absurd (List.get?_eq_none.mp h2) (by omega)
    | some p2 =>
    cases h3 : ext.get? (i + 3) with
    | none => exact absurd (List.get?_eq_none.mp h3) (by omega)
    | some p3 =>
    refine ⟨upsample_segment p0 p1 p2 p3 ++ tail, ?_⟩
    unfold upsample_windows catmull_window
    rw [h0, h1, h2, h3, htail]

theorem get_upsampled_points_total (s : List Point) (hs : s ≠ []) :
    ∃ l, get_upsampled_points s = some l ∧ l ≠ [] := by
  unfold get_upsampled_points
  by_cases h1 : s.length = 1
  · rw [if_pos h1]
    obtain ⟨p, rfl⟩ := List.length_eq_one.mp h1
    exact ⟨[p], rfl, by simp⟩
  · rw [if_neg h1]
    have hpos : 0 < s.length := List.length_pos.mpr hs
    have hlen : 2 ≤ s.length := by omega
    cases hg1 : s.get? 1 with
    | none => exact absurd (List.get?_eq_none.mp hg1) (by omega)
    | some s1 =>
    cases hg0 : s.get? 0 with
    | none => exact absurd (List.get?_eq_none.mp hg0) (by omega)
    | some s0 =>
    cases hgp : s.get? (s.length - 2) with
    | none => exact absurd (List.get?_eq_none.mp hgp) (by omega)
    | some spen =>
    cases hgl : s.get? (s.length - 1) with
    | none => exact absurd (List.get?_eq_none.mp hgl) (by omega)
    | some slast =>
    dsimp only
    have hextlen :
        (Point.mirror s1 s0 :: (s ++ [Point.mirror spen slast])).length = s.length + 2 := by
      simp
    obtain ⟨l, hl⟩ := upsample_windows_total
      (Point.mirror s1 s0 :: (s ++ [Point.mirror spen slast]))
      (List.range ((Point.mirror s1 s0 :: (s ++ [Point.mirror spen slast])).length - 3))
      (by
        intro i hi
        rw [List.mem_range] at hi
        omega)
    rw [hl]
    exact ⟨l ++ [slast], rfl, by simp⟩

theorem get_samples_ne_oob (sp : Spline) (hs : sp.points ≠ []) (fuel : ℕ) :
    Spline.get_samples sp fuel ≠ SampleResult.oob := by
  unfold Spline.get_samples
  obtain ⟨l, hl, hne⟩ := get_upsampled_points_total sp.points hs
  rw [hl]
  cases l with
  | nil => exact absurd rfl hne
  | cons c rest => exact sample_loop_ne_oob _ _ _ _ _ _

/-- C9 counterexample: on the one-point spline `[(10, 20)]` the sampling
loop emits two arcs — the seed arc of length 1 and the final residual arc
of length 0 — not exactly one as claimed. -/
theorem c9_counterexample : num_arcs (Spline.get_samples spline_single 2) = some 2 := by
  rw [show spline_single =
      Spline.mk [Point.mk 10 20] (fun _ _ => 0) (fun _ => 0) from rfl,
    get_samples_single (Point.mk 10 20) (fun _ _ => 0) (fun _ => 0) 2 (le_refl 2)]
  rfl

/-- C9 amended: for a decoded spline whose control points are exactly
`[(10, 20)]`, `get_upsampled_points` returns `[(10, 20)]`, and
`get_samples` returns exactly two arcs: the seed arc at `(10, 20)` with
length 1 and the final residual arc at `(10, 20)` with length 0. -/
theorem c9_one_point_spline (xyb : Fin 3 → Fin 32 → ℝ) (sigma : Fin 32 → ℝ) (fuel : ℕ)
    (hf : 2 ≤ fuel) :
    get_upsampled_points [Point.mk 10 20] = some [Point.mk 10 20] ∧
    Spline.get_samples ⟨[Point.mk 10 20], xyb, sigma⟩ fuel =
      SampleResult.ok [⟨Point.mk 10 20, 1⟩, ⟨Point.mk 10 20, 0⟩] :=
  ⟨get_upsampled_single _, get_samples_single _ xyb sigma fuel hf⟩

theorem c9_one_point_spline_witness :
    (2 : ℕ) ≤ 2 ∧
    (get_upsampled_points [Point.mk 10 20] = some [Point.mk 10 20] ∧
      Spline.get_samples spline_single 2 =
        SampleResult.ok [⟨Point.mk 10 20, 1⟩, ⟨Point.mk 10 20, 0⟩]) :=
  ⟨le_refl 2, c9_one_point_spline (fun _ _ => 0) (fun _ => 0) 2 (le_refl 2)⟩

/-- C10: every spline produced by `dequant` has a non-empty control-point
list (the start point is pushed first), so `get_upsampled_points` never
hits an out-of-bounds access and `get_samples` never reaches its panic
case, for any fuel. -/
theorem c10_dequant_sampling_safe (sp : QuantSpline) (qa : ℤ) (corr : Option (ℝ × ℝ))
    (ea fuel : ℕ) :
    (QuantSpline.dequant sp qa corr ea).1.points ≠ [] ∧
    get_upsampled_points (QuantSpline.dequant sp qa corr ea).1.points ≠ none ∧
    Spline.get_samples (QuantSpline.dequant sp qa corr ea).1 fuel ≠ SampleResult.oob := by
  have hpts : (QuantSpline.dequant sp qa corr ea).1.points =
      ((sp.start_point :: (dequant_points_go sp.start_point (0, 0) 0 sp.points_deltas).1).map
        fun v => Point.mk (v.1 : ℝ) (v.2 : ℝ)) := rfl
  have hne : (QuantSpline.dequant sp qa corr ea).1.points ≠ [] := by
    rw [hpts]
    simp
  refine ⟨hne, ?_, get_samples_ne_oob _ hne fuel⟩
  obtain ⟨l, hl, _⟩ := get_upsampled_points_total _ hne
  rw [hl]
  simp

/-- C7: with a requested region in frame-local coordinates, a delta
palette in the LF-global modular image drops the region (full decode) and
emits a diagnostic; otherwise a squeeze transform turns
`(left, top, width, height)` into `(0, 0, left+width, top+height)` and
emits a diagnostic. -/
theorem c7_crop_planner {B M HfG E : Type} (ctx : LoaderCtx B M HfG E) (lfg : LfGlobal M)
    (left top width height : ℕ)
    (hw : left + width < u32_size) (hh : top + height < u32_size) :
    (ctx.has_delta_palette lfg.gmodular = true →
      (Loader.adjust_region_for_modular ctx lfg (some (left, top, width, height))).1 = none ∧
      Loader.Diag.deltaPalette ∈
        (Loader.adjust_region_for_modular ctx lfg (some (left, top, width, height))).2) ∧
    (ctx.has_delta_palette lfg.gmodular = false →
      ctx.has_squeeze lfg.gmodular = true →
      (Loader.adjust_region_for_modular ctx lfg (some (left, top, width, height))).1 =
        some (0, 0, left + width, top + height) ∧
      Loader.Diag.squeeze ∈
        (Loader.adjust_region_for_modular ctx lfg (some (left, top, width, height))).2) := by
  have h1 : (width + left) % u32_size = left + width := by
    rw [Nat.mod_eq_of_lt (by omega), Nat.add_comm]
  have h2 : (height + top) % u32_size = top + height := by
    rw [Nat.mod_eq_of_lt (by omega), Nat.add_comm]
  constructor
  · intro hdp
    constructor <;> simp [Loader.adjust_region_for_modular, hdp]
  · intro hdp hsq
    constructor <;> simp [Loader.adjust_region_for_modular, hdp, hsq, h1, h2]

theorem c7_crop_planner_witness :
    ((50 : ℕ) + 100 < u32_size) ∧
    ((Loader.adjust_region_for_modular ctx_delta_palette ⟨()⟩ (some (50, 50, 100, 100))).1 =
        none ∧
      Loader.Diag.deltaPalette ∈
        (Loader.adjust_region_for_modular ctx_delta_palette ⟨()⟩ (some (50, 50, 100, 100))).2) ∧
    ((Loader.adjust_region_for_modular ctx_squeeze ⟨()⟩ (some (50, 50, 100, 100))).1 =
        some (0, 0, 150, 150) ∧
      Loader.Diag.squeeze ∈
        (Loader.adjust_region_for_modular ctx_squeeze ⟨()⟩ (some (50, 50, 100, 100))).2) :=
  ⟨by norm_num [u32_size],
   (c7_crop_planner ctx_delta_palette ⟨()⟩ 50 50 100 100 (by norm_num [u32_size])
      (by norm_num [u32_size])).1 rfl,
   (c7_crop_planner ctx_squeeze ⟨()⟩ 50 50 100 100 (by norm_num [u32_size])
      (by norm_num [u32_size])).2 rfl rfl⟩

/-- `read_group` mutates nothing when it returns an error: every error
branch of the dispatch returns the state as it was. -/
theorem read_group_err_state {B M HfG E : Type} (ctx : LoaderCtx B M HfG E)
    (st : FrameState M HfG B) (g : TocGroup) (buf : B)
    (hne : (Loader.read_group ctx st g buf).2 ≠ none) :
    (Loader.read_group ctx st g buf).1 = st := by
  rcases hres : Loader.read_group ctx st g buf with ⟨st', e⟩
  rw [hres] at hne
  dsimp only at hne ⊢
  unfold Loader.read_group at hres
  repeat' split at hres
  all_goals
    injection hres with hA hB
  all_goals
    subst hB
  all_goals
    first
    | exact absurd rfl hne
    | exact hA.symm

/-- C4 counterexample: on a modular frame whose pass-group parse fails,
`load_cropped_par` returns an error but has already installed the parsed
LF-global into `FrameData`: the data is not left as it was before the
call. -/
theorem c4_counterexample :
    (Loader.load_cropped_par ctx_pass_fails frame_state0 toc_with_pass none).2 ≠ none ∧
    (Loader.load_cropped_par ctx_pass_fails frame_state0 toc_with_pass none).1.data.lf_global ≠
      frame_state0.data.lf_global := by
  decide

/-- C4 amended: whenever `load_cropped_par` returns an error, no pass-group
data is installed — the `group_pass` map is exactly as before the call;
the other `FrameData` fields (`lf_global`, `hf_global`, `lf_group`) may
have been taken out, replaced, or installed. -/
theorem c4_par_error_group_pass_unchanged {B M HfG E : Type} (ctx : LoaderCtx B M HfG E)
    (st : FrameState M HfG B) (toc : List TocGroup) (region : Option Region)
    (st' : FrameState M HfG B) (e : Option (LoadErr E))
    (hres : Loader.load_cropped_par ctx st toc region = (st', e)) (hne : e ≠ none) :
    st'.data.group_pass = st.data.group_pass := by
  unfold Loader.load_cropped_par at hres
  by_cases hlen : toc.length = 1
  · rw [if_pos hlen] at hres
    obtain ⟨g, rfl⟩ := List.length_eq_one.mp hlen
    dsimp only at hres
    have h2 : (Loader.read_group ctx st g (ctx.stream g.offset)).2 ≠ none := by
      rw [hres]
      exact hne
    have h1 := read_group_err_state ctx st g (ctx.stream g.offset) h2
    rw [hres] at h1
    dsimp only at h1
    rw [h1]
  · rw [if_neg hlen] at hres
    dsimp only at hres
    repeat' split at hres
    all_goals
      injection hres with hA hB
    all_goals
      subst hB
    all_goals
      first
      | exact absurd rfl hne
      | (subst hA; rfl)

theorem c4_par_error_group_pass_unchanged_witness :
    (Loader.load_cropped_par ctx_pass_fails frame_state0 toc_with_pass none).2 ≠ none ∧
    (Loader.load_cropped_par ctx_pass_fails frame_state0 toc_with_pass none).1.data.group_pass =
      frame_state0.data.group_pass :=
  ⟨by decide,
   c4_par_error_group_pass_unchanged ctx_pass_fails frame_state0 toc_with_pass none _ _ rfl
     (by decide)⟩

/-- The first loop of `load_cropped` on a TOC whose first LF-global entry
sits after `pre`: every `pre` section is buffered verbatim (the bytes at
its offset), LF-global is read, and the iterator rests at `post`. -/
theorem load_loop1_spec {B M HfG E : Type} (ctx : LoaderCtx B M HfG E) (lfgE : TocGroup)
    (hkind : lfgE.kind = TocGroupKind.lfGlobal) (post : List TocGroup) :
    ∀ (pre : List TocGroup) (st : FrameState M HfG B) (pending : List (TocGroup × B)),
    (∀ g ∈ pre, g.kind ≠ TocGroupKind.lfGlobal) →
    Loader.load_loop1 ctx st (pre ++ lfgE :: post) pending =
      ((Loader.read_group ctx st lfgE (ctx.stream lfgE.offset)).1,
       pending ++ pre.map (fun g => (g, ctx.stream g.offset)), post,
       (Loader.read_group ctx st lfgE (ctx.stream lfgE.offset)).2) := by
  intro pre
  induction pre with
  | nil =>
    intro st pending hpre
    simp only [List.nil_append, Loader.load_loop1]
    rw [if_pos hkind]
    rcases hr : Loader.read_group ctx st lfgE (ctx.stream lfgE.offset) with ⟨st', e⟩
    cases e <;> simp
  | cons g pre ih =>
    intro st pending hpre
    have hg : g.kind ≠ TocGroupKind.lfGlobal := hpre g (by simp)
    simp only [List.cons_append, Loader.load_loop1, List.append_eq]
    rw [if_neg hg, ih st (pending ++ [(g, ctx.stream g.offset)]) fun x hx => hpre x (by simp [hx])]
    simp

/-- The second loop of `load_cropped` treats a section buffered from
offset `o` exactly like a direct read at offset `o`: the pending buffer
preserves the bytes verbatim. -/
theorem load_loop2_buffered {B M HfG E : Type} (ctx : LoaderCtx B M HfG E)
    (region : Option Region) :
    ∀ (pre : List TocGroup) (tail : List (TocGroup × Option B)) (st : FrameState M HfG B),
    Loader.load_loop2 ctx region st
        (pre.map (fun g => (g, some (ctx.stream g.offset))) ++ tail) =
      Loader.load_loop2 ctx region st (pre.map (fun g => (g, (none : Option B))) ++ tail) := by
  intro pre
  induction pre with
  | nil =>
    intro tail st
    rfl
  | cons g pre ih =>
    intro tail st
    simp only [List.map_cons, List.cons_append, Loader.load_loop2, Option.getD]
    by_cases hskip : Loader.skip_by_region ctx region g = true
    · rw [if_pos hskip, if_pos hskip]
      exact ih tail st
    · rw [if_neg hskip, if_neg hskip]
      rcases hr : Loader.read_group ctx st g (ctx.stream g.offset) with ⟨st', e⟩
      cases e
      · exact ih tail st'
      · rfl

/-- C1: on a multi-entry TOC where the sections `pre` (none of them
LF-global) appear before LF-global, the serial loader `load_cropped`
buffers their raw bytes, parses LF-global, then parses the buffered
sections from the preserved bytes; the result — final `FrameData` and
outcome — is the same as loading the dependency-ordered stream where
LF-global comes first. -/
theorem c1_out_of_order_matches_in_order {B M HfG E : Type} (ctx : LoaderCtx B M HfG E)
    (st : FrameState M HfG B) (pre post : List TocGroup) (lfgE : TocGroup)
    (region : Option Region)
    (hkind : lfgE.kind = TocGroupKind.lfGlobal)
    (hpre : ∀ g ∈ pre, g.kind ≠ TocGroupKind.lfGlobal)
    (hlen : 2 ≤ (pre ++ lfgE :: post).length) :
    Loader.load_cropped ctx st (pre ++ lfgE :: post) region =
      Loader.load_cropped ctx st (lfgE :: (pre ++ post)) region := by
  have hlen2 : (lfgE :: (pre ++ post)).length = (pre ++ lfgE :: post).length := by
    simp only [List.length_cons, List.length_append]
    omega
  have hne1 : ¬ (pre ++ lfgE :: post).length = 1 := by omega
  have hne2 : ¬ (lfgE :: (pre ++ post)).length = 1 := by omega
  unfold Loader.load_cropped
  rw [if_neg hne1, if_neg hne2]
  dsimp only
  rw [load_loop1_spec ctx lfgE hkind post pre st [] hpre]
  have h2 := load_loop1_spec ctx lfgE hkind (pre ++ post) [] st [] (by simp)
  simp only [List.nil_append, List.map_nil, List.append_nil] at h2
  rw [h2]
  rcases hr : Loader.read_group ctx st lfgE (ctx.stream lfgE.offset) with ⟨st1, e⟩
  cases e with
  | some e =>
    rfl
  | none =>
    dsimp only
    cases hlf : st1.data.lf_global with
    | none => rfl
    | some lfg =>
      dsimp only
      simp only [List.nil_append, List.map_nil, List.map_map, List.map_append]
      have hcomp :
          ((fun pb : TocGroup × B => (pb.1, some pb.2)) ∘ fun g => (g, ctx.stream g.offset)) =
            fun g : TocGroup => (g, some (ctx.stream g.offset)) := rfl
      rw [hcomp]
      exact load_loop2_buffered ctx _ pre (post.map fun g => (g, (none : Option B))) st1

/-- C2 counterexample: on an out-of-order stream (LF-group 0 before
LF-global) both loaders succeed, but `load_all` parks the LF-group in
`pending_groups` forever (`try_pending_blocks` is a no-op) while
`load_all_par` buffers and parses it: the resulting `FrameData` differ. -/
theorem c2_counterexample :
    (Loader.load_all ctx_ok frame_state0 toc_out_of_order).2 = none ∧
    (Loader.load_all_par ctx_ok frame_state0 toc_out_of_order).2 = none ∧
    (Loader.load_all ctx_ok frame_state0 toc_out_of_order).1.data ≠
      (Loader.load_all_par ctx_ok frame_state0 toc_out_of_order).1.data := by
  decide

/-- Setting `hf_global` to the value it already has is the identity on the
frame state. -/
theorem state_set_hf_self {M HfG B : Type} (st : FrameState M HfG B)
    (h : st.data.hf_global = some none) :
    ({ st with data := { st.data with hf_global := some none } } : FrameState M HfG B) = st := by
  obtain ⟨⟨a, b, c, d⟩, p⟩ := st
  dsimp only at h
  subst h
  rfl

theorem frame_state_eq {M HfG B : Type} (s t : FrameState M HfG B)
    (h1 : s.data.lf_global = t.data.lf_global) (h2 : s.data.lf_group = t.data.lf_group)
    (h3 : s.data.hf_global = t.data.hf_global) (h4 : s.data.group_pass = t.data.group_pass)
    (h5 : s.pending_groups = t.pending_groups) : s = t := by
  obtain ⟨⟨a1, a2, a3, a4⟩, a5⟩ := s
  obtain ⟨⟨b1, b2, b3, b4⟩, b5⟩ := t
  dsimp only at h1 h2 h3 h4 h5
  subst h1
  subst h2
  subst h3
  subst h4
  subst h5
  rfl

/-- Without a requested region the crop planner leaves the region empty. -/
theorem adjust_region_none {B M HfG E : Type} (ctx : LoaderCtx B M HfG E)
    (lfg : LfGlobal M) :
    (Loader.adjust_region_for_modular ctx lfg none).1 = none := by
  unfold Loader.adjust_region_for_modular
  split_ifs <;> rfl

/-- For a modular frame, HF-global sections ahead of the tail are no-ops
for the serial loader: `read_hf_global` is `Ok(None)` and rewrites
`hf_global` to the value it already has. -/
theorem load_all_go_hf_pre {B M HfG E : Type} (ctx : LoaderCtx B M HfG E)
    (hvd : ctx.is_vardct = false) :
    ∀ (pre : List TocGroup), (∀ g ∈ pre, g.kind = TocGroupKind.hfGlobal) →
    ∀ (st : FrameState M HfG B) (tail : List TocGroup),
    st.data.hf_global = some none →
    Loader.load_all_go ctx st (pre ++ tail) = Loader.load_all_go ctx st tail := by
  intro pre
  induction pre with
  | nil =>
    intro _ st tail _
    rfl
  | cons g pre ih =>
    intro hpre st tail hhf
    have hg : g.kind = TocGroupKind.hfGlobal := hpre g (by simp)
    rw [List.cons_append]
    simp only [Loader.load_all_go, Loader.read_group, hg, Loader.read_hf_global, hvd,
      Bool.false_eq_true, if_false]
    rw [state_set_hf_self st hhf]
    exact ih (fun x hx => hpre x (by simp [hx])) st tail hhf

/-- For a modular frame the drain loop consumes leading HF-global sections
without any visible effect (`hf_global` is already known). -/
theorem drain_loop_pre_hf {B M HfG E : Type} (ctx : LoaderCtx B M HfG E)
    (hvd : ctx.is_vardct = false) :
    ∀ (pre : List TocGroup), (∀ g ∈ pre, g.kind = TocGroupKind.hfGlobal) →
    ∀ (tail : List TocGroup),
    Loader.drain_loop ctx none (some none) [] [] (pre ++ tail) =
      Loader.drain_loop ctx none (some none) [] [] tail := by
  intro pre
  induction pre with
  | nil =>
    intro _ tail
    rfl
  | cons g pre ih =>
    intro hpre tail
    have hg : g.kind = TocGroupKind.hfGlobal := hpre g (by simp)
    rw [List.cons_append]
    conv_lhs => rw [Loader.drain_loop.eq_def]
    simp only [hg, Loader.read_hf_global, hvd, Bool.false_eq_true, if_false]
    exact ih (fun x hx => hpre x (by simp [hx])) tail

/-- Serial steady-state characterisation: once `lf_global` is parsed and
`hf_global` is known-absent, a successful serial walk over sections free
of LF-global/All produces exactly the maps the two parallel workers
compute from the forwarded buffers, leaves the globals untouched, and
never parks anything. -/
theorem load_all_go_spec {B M HfG E : Type} (ctx : LoaderCtx B M HfG E)
    (hvd : ctx.is_vardct = false) (L : LfGlobal M) :
    ∀ (sections : List TocGroup) (st : FrameState M HfG B),
    st.data.lf_global = some L →
    st.data.hf_global = some none →
    (∀ g ∈ sections, g.kind ≠ TocGroupKind.lfGlobal ∧ g.kind ≠ TocGroupKind.all) →
    (Loader.load_all_go ctx st sections).2 = none →
    Loader.worker_lf ctx none L st.data.lf_group (Loader.collect_lf_bufs ctx sections) =
        Except.ok (Loader.load_all_go ctx st sections).1.data.lf_group ∧
    Loader.worker_pass ctx none L none st.data.group_pass
        (Loader.collect_pass_bufs ctx sections) =
        Except.ok (Loader.load_all_go ctx st sections).1.data.group_pass ∧
    (Loader.load_all_go ctx st sections).1.data.lf_global = some L ∧
    (Loader.load_all_go ctx st sections).1.data.hf_global = some none ∧
    (Loader.load_all_go ctx st sections).1.pending_groups = st.pending_groups := by
  intro sections
  induction sections with
  | nil =>
    intro st hlf hhf _ _
    exact ⟨rfl, rfl, hlf, hhf, rfl⟩
  | cons g rest ih =>
    intro st hlf hhf hkinds hok
    have hkg := hkinds g (by simp)
    have hkrest : ∀ x ∈ rest, x.kind ≠ TocGroupKind.lfGlobal ∧ x.kind ≠ TocGroupKind.all :=
      fun x hx => hkinds x (by simp [hx])
    cases hk : g.kind with
    | all => exact absurd hk hkg.2
    | lfGlobal => exact absurd hk hkg.1
    | lfGroup i =>
      simp only [Loader.load_all_go, Loader.read_group, Loader.collect_lf_bufs,
        Loader.collect_pass_bufs, List.filterMap_cons, hk, hlf] at hok ⊢
      cases hp : ctx.parse_lf_group L i (ctx.stream g.offset) with
      | error e =>
        rw [hp] at hok
        simp at hok
      | ok v =>
        rw [hp] at hok
        dsimp only at hok
        dsimp only
        simp only [Loader.worker_lf, Loader.skip_by_region]
        rw [hp]
        dsimp only
        exact ih ⟨⟨some L, map_insert nat_lt i v st.data.lf_group, st.data.hf_global,
          st.data.group_pass⟩, st.pending_groups⟩ rfl hhf hkrest hok
    | hfGlobal =>
      simp only [Loader.load_all_go, Loader.read_group, Loader.collect_lf_bufs,
        Loader.collect_pass_bufs, List.filterMap_cons, hk, Loader.read_hf_global, hvd,
        Bool.false_eq_true, if_false] at hok ⊢
      rw [state_set_hf_self st hhf] at hok ⊢
      exact ih st hlf hhf hkrest hok
    | groupPass p q =>
      simp only [Loader.load_all_go, Loader.read_group, Loader.collect_lf_bufs,
        Loader.collect_pass_bufs, List.filterMap_cons, hk, hlf, hhf] at hok ⊢
      cases hp : ctx.parse_group_pass L none p q (ctx.stream g.offset) with
      | error e =>
        rw [hp] at hok
        simp at hok
      | ok v =>
        rw [hp] at hok
        dsimp only at hok
        dsimp only
        simp only [Loader.worker_pass, Loader.skip_by_region]
        rw [hp]
        dsimp only
        exact ih ⟨⟨some L, st.data.lf_group, some none,
          map_insert nat2_lt (p, q) v st.data.group_pass⟩, st.pending_groups⟩ rfl rfl hkrest hok

/-- C2 amended: for a modular frame with fresh `FrameData`, on any stream
whose TOC lists LF-global before every LF-group and pass-group section
(sections before it can only be HF-global) and contains no `All` entry,
whenever `load_all` succeeds, `load_all_par` returns the very same result:
identical `FrameData` (and hence identical data after `complete`). -/
theorem c2_in_order_load_all_par_eq {B M HfG E : Type} (ctx : LoaderCtx B M HfG E)
    (pending : List (TocGroupKind × B)) (pre rest : List TocGroup) (lfgE : TocGroup)
    (hvd : ctx.is_vardct = false)
    (hkind : lfgE.kind = TocGroupKind.lfGlobal)
    (hpre : ∀ g ∈ pre, g.kind = TocGroupKind.hfGlobal)
    (hrest : ∀ g ∈ rest, g.kind ≠ TocGroupKind.lfGlobal ∧ g.kind ≠ TocGroupKind.all)
    (hok : (Loader.load_all ctx ⟨FrameData.new M HfG false, pending⟩
        (pre ++ lfgE :: rest)).2 = none) :
    Loader.load_all_par ctx ⟨FrameData.new M HfG false, pending⟩ (pre ++ lfgE :: rest) =
      Loader.load_all ctx ⟨FrameData.new M HfG false, pending⟩ (pre ++ lfgE :: rest) := by
  by_cases hlen : (pre ++ lfgE :: rest).length = 1
  · have h0 : pre.length + (rest.length + 1) = 1 := by
      simpa using hlen
    obtain rfl : pre = [] := List.length_eq_zero.mp (by omega)
    obtain rfl : rest = [] := List.length_eq_zero.mp (by omega)
    rfl
  · have hser : Loader.load_all ctx ⟨FrameData.new M HfG false, pending⟩ (pre ++ lfgE :: rest) =
        Loader.load_all_go ctx ⟨FrameData.new M HfG false, pending⟩ (lfgE :: rest) := by
      unfold Loader.load_all
      rw [if_neg hlen]
      exact load_all_go_hf_pre ctx hvd pre hpre _ (lfgE :: rest) rfl
    rw [hser] at hok
    cases hpL : ctx.parse_lf_global (ctx.stream lfgE.offset) with
    | error e =>
      exfalso
      simp only [Loader.load_all_go, Loader.read_group, hkind] at hok
      rw [hpL] at hok
      simp at hok
    | ok L =>
      have hser2 : Loader.load_all_go ctx ⟨FrameData.new M HfG false, pending⟩ (lfgE :: rest) =
          Loader.load_all_go ctx ⟨⟨some L, [], some none, []⟩, pending⟩ rest := by
        simp only [Loader.load_all_go, Loader.read_group, hkind]
        rw [hpL]
        rfl
      rw [hser2] at hok
      obtain ⟨s1, s2, s3, s4, s5⟩ := load_all_go_spec ctx hvd L rest
        ⟨⟨some L, [], some none, []⟩, pending⟩ rfl rfl hrest hok
      dsimp only at s1 s2 s5
      have hdrain : Loader.drain_loop ctx (FrameData.new M HfG false).lf_global
          (FrameData.new M HfG false).hf_global [] [] (pre ++ lfgE :: rest) =
          Loader.DrainResult.ok L none [] [] rest := by
        show Loader.drain_loop ctx none (some none) [] [] (pre ++ lfgE :: rest) = _
        rw [drain_loop_pre_hf ctx hvd pre hpre]
        conv_lhs => rw [Loader.drain_loop.eq_def]
        dsimp only
        rw [hkind]
        dsimp only
        rw [hpL]
        dsimp only
        conv_lhs => rw [Loader.drain_loop.eq_def]
      have htrans : Loader.translate_region ctx (none : Option Region) = none := rfl
      have hadj : (Loader.adjust_region_for_modular ctx L none).1 = none :=
        adjust_region_none ctx L
      unfold Loader.load_all_par Loader.load_cropped_par
      rw [if_neg hlen]
      dsimp only
      rw [hdrain]
      dsimp only
      rw [htrans, hadj]
      simp only [List.nil_append]
      rw [s1]
      dsimp only
      rw [s2]
      dsimp only
      rw [hser, hser2]
      have hsplit : Loader.load_all_go ctx
          (⟨⟨some L, [], some none, []⟩, pending⟩ : FrameState M HfG B) rest =
          ((Loader.load_all_go ctx ⟨⟨some L, [], some none, []⟩, pending⟩ rest).1,
           (Loader.load_all_go ctx ⟨⟨some L, [], some none, []⟩, pending⟩ rest).2) := rfl
      rw [hsplit, hok]
      exact congrArg (fun s => (s, (none : Option (LoadErr E))))
        (frame_state_eq _ _ s3.symm rfl s4.symm rfl s5.symm)

theorem c2_in_order_load_all_par_eq_witness :
    (Loader.load_all ctx_ok ⟨FrameData.new Unit Unit false, []⟩ toc_in_order).2 = none ∧
    Loader.load_all_par ctx_ok ⟨FrameData.new Unit Unit false, []⟩ toc_in_order =
      Loader.load_all ctx_ok ⟨FrameData.new Unit Unit false, []⟩ toc_in_order :=
  ⟨by decide,
   c2_in_order_load_all_par_eq ctx_ok [] [] [TocGroup.mk (TocGroupKind.lfGroup 0) 1 1]
     (TocGroup.mk TocGroupKind.lfGlobal 0 1) rfl rfl (by decide) (by decide) (by decide)⟩

theorem c1_out_of_order_matches_in_order_witness :
    ((TocGroup.mk TocGroupKind.lfGlobal 1 1).kind = TocGroupKind.lfGlobal ∧
      (∀ g ∈ [TocGroup.mk (TocGroupKind.lfGroup 0) 0 1], g.kind ≠ TocGroupKind.lfGlobal) ∧
      2 ≤ ([TocGroup.mk (TocGroupKind.lfGroup 0) 0 1] ++
            TocGroup.mk TocGroupKind.lfGlobal 1 1 :: ([] : List TocGroup)).length) ∧
    Loader.load_cropped ctx_ok frame_state0
        ([TocGroup.mk (TocGroupKind.lfGroup 0) 0 1] ++
          TocGroup.mk TocGroupKind.lfGlobal 1 1 :: ([] : List TocGroup)) none =
      Loader.load_cropped ctx_ok frame_state0
        (TocGroup.mk TocGroupKind.lfGlobal 1 1 ::
          ([TocGroup.mk (TocGroupKind.lfGroup 0) 0 1] ++ ([] : List TocGroup))) none :=
  ⟨⟨rfl, by decide, by decide⟩,
   c1_out_of_order_matches_in_order ctx_ok frame_state0
     [TocGroup.mk (TocGroupKind.lfGroup 0) 0 1] [] (TocGroup.mk TocGroupKind.lfGlobal 1 1)
     none rfl (by decide) (by decide)⟩

end Jxl
